import Mathlib

/-!
Shallow embedding of the ranking-and-allocation engine of the portfolio
rebalancer (programs/rebalancer/src) and proofs about it.

Machine integers are modelled as `Nat`.  Wherever the Rust source performs a
truncating `as u64` / `as u32` cast or an unchecked (release-profile wrapping)
`u64` multiplication, the embedding applies an explicit `% 2^64` (resp.
`% 2^32`); `saturating_sub` coincides with truncated `Nat` subtraction; every
`checked_*` operation is modelled as an `Except` failure carrying the error the
source attaches with `ok_or`.  Casts whose operand is proved bounded by the
surrounding branch (for example a percentile rank, which is at most 100, cast
to `u8`) are written without the redundant reduction.
-/

namespace Rebalancer

/-- Largest value of an unsigned 64-bit integer. -/
def U64MAX : Nat := 2 ^ 64 - 1

/-- Largest value of an unsigned 32-bit integer. -/
def U32MAX : Nat := 2 ^ 32 - 1

/-- Truncating cast to `u64`; also the result of a wrapping `u64` multiplication. -/
def toU64 (n : Nat) : Nat := n % 2 ^ 64

/-- Truncating cast to `u32`. -/
def toU32 (n : Nat) : Nat := n % 2 ^ 32

/-- Truncating reduction of a `u128` computation. -/
def toU128 (n : Nat) : Nat := n % 2 ^ 128

/-- Account addresses (`Pubkey`) are opaque identifiers; `Nat` with decidable
equality is enough for the engine, which only copies and compares them. -/
abbrev Pubkey := Nat

/-- The error codes of `errors.rs` that the engine functions can produce.
(`InvalidPerformanceScore` is referenced by `calculate_optimal_allocation`
in the source even though `errors.rs` does not declare it.) -/
inductive RebalancerError where
  | InsufficientBalance
  | MathOverflow
  | DivisionByZero
  | InvalidTotalAllocation
  | BalanceOverflow
  | InsufficientStrategies
  | InvalidPerformanceScore
  | EmergencyPauseActive
  | DuplicateStrategy
deriving DecidableEq, Repr

instance instDecEqExcept {ε α : Type} [DecidableEq ε] [DecidableEq α] :
    DecidableEq (Except ε α) := fun x y =>
  match x, y with
  | .ok a, .ok b => if h : a = b then .isTrue (by simp [h]) else .isFalse (by simp [h])
  | .error a, .error b => if h : a = b then .isTrue (by simp [h]) else .isFalse (by simp [h])
  | .ok _, .error _ => .isFalse (by simp)
  | .error _, .ok _ => .isFalse (by simp)

/-- `a.checked_mul(b)` on `u64`, with the error the source attaches via `ok_or`. -/
def checked_mul64 (e : RebalancerError) (a b : Nat) : Except RebalancerError Nat :=
  if a * b ≤ U64MAX then .ok (a * b) else .error e

/-- `a.checked_div(b)` on `u64`, with the error the source attaches via `ok_or`. -/
def checked_div64 (e : RebalancerError) (a b : Nat) : Except RebalancerError Nat :=
  if b = 0 then .error e else .ok (a / b)

/-- `a.checked_add(b)` on `u64`, with the error the source attaches via `ok_or`. -/
def checked_add64 (e : RebalancerError) (a b : Nat) : Except RebalancerError Nat :=
  if a + b ≤ U64MAX then .ok (a + b) else .error e

/-- `a.checked_mul(b)` on `u32`. -/
def checked_mul32 (e : RebalancerError) (a b : Nat) : Except RebalancerError Nat :=
  if a * b ≤ U32MAX then .ok (a * b) else .error e

/-- `a.checked_add(b)` on `u32`. -/
def checked_add32 (e : RebalancerError) (a b : Nat) : Except RebalancerError Nat :=
  if a + b ≤ U32MAX then .ok (a + b) else .error e

/-- `state/mod.rs`: protocol classification of a strategy. -/
inductive ProtocolType where
  | StableLending (pool_id : Pubkey) (utilization : Nat) (reserve_address : Pubkey)
  | YieldFarming (pair_id : Pubkey) (reward_multiplier : Nat)
      (token_a_mint : Pubkey) (token_b_mint : Pubkey) (fee_tier : Nat)
  | LiquidStaking (validator_id : Pubkey) (commission : Nat)
      (stake_pool : Pubkey) (unstake_delay : Nat)
deriving DecidableEq, Repr

/-- `redistribute_capital.rs`: purpose of one allocation record. -/
inductive AllocationType where
  | TopPerformer
  | RiskDiversification
  | PlatformFee
  | ManagerIncentive
deriving DecidableEq, Repr

/-- `redistribute_capital.rs`: one capital-allocation record.  The struct is
declared in the repository's state module (used via `use crate::state::*`);
its field list is fixed by every use site in `redistribute_capital.rs`. -/
structure CapitalAllocation where
  strategy_id : Pubkey
  amount : Nat
  allocation_type : AllocationType
deriving DecidableEq, Repr

/-- `redistribute_capital.rs`: per-strategy snapshot consumed by allocation. -/
structure StrategyPerformanceData where
  strategy_id : Pubkey
  performance_score : Nat
  current_balance : Nat
  volatility_score : Nat
  protocol_type : ProtocolType
  percentile_rank : Nat
deriving DecidableEq, Repr

/-- `redistribute_capital.rs`: the risk-limits configuration. -/
structure RiskLimits where
  max_single_strategy_bps : Nat
  min_single_strategy_bps : Nat
  platform_fee_bps : Nat
  manager_fee_bps : Nat
  risk_tolerance_bps : Nat
  platform_treasury : Pubkey
  manager_treasury : Pubkey
deriving DecidableEq, Repr

/-- The `Default` impl for `RiskLimits` in `redistribute_capital.rs`. -/
def RiskLimits.default : RiskLimits where
  max_single_strategy_bps := 4000
  min_single_strategy_bps := 100
  platform_fee_bps := 50
  manager_fee_bps := 150
  risk_tolerance_bps := 8000
  platform_treasury := 0
  manager_treasury := 0

/-- `state/mod.rs`: the portfolio account (the engine reads only
`rebalance_threshold`; the `reserved` padding bytes are omitted). -/
structure Portfolio where
  manager : Pubkey
  rebalance_threshold : Nat
  total_strategies : Nat
  total_capital_moved : Nat
  last_rebalance : Int
  min_rebalance_interval : Int
  portfolio_creation : Int
  emergency_pause : Bool
  performance_fee_bps : Nat
  bump : Nat
deriving DecidableEq, Repr

/-- `execute_ranking.rs`: per-strategy record used by the ranking unit. -/
structure StrategyData where
  strategy_id : Pubkey
  performance_score : Nat
  current_balance : Nat
  volatility_score : Nat
  percentile_rank : Nat
  rebalance_threshold : Nat
deriving DecidableEq, Repr

/-! ## Scoring unit (`update_performance.rs`) -/

/-- Yield normalization inside `calculate_performance_score`. -/
def normalized_yield (yield_rate : Nat) : Nat :=
  if 50000 < yield_rate then 10000 else toU64 (yield_rate * 10000 / 50000)

/-- Balance normalization inside `calculate_performance_score`.

The middle (logarithmic) branch of the source computes
`((balance as f64).ln() * 1000.0) as u64`; the embedding abstracts that value
as `lnScaled balance`.  `log_min` and `log_max` are the constants the source
computes the same way from the fixed endpoints: `ln(10^8)·1000` truncates to
`18420` and `ln(10^11)·1000` truncates to `25328`. -/
def normalized_balance (lnScaled : Nat → Nat) (balance : Nat) : Nat :=
  if balance = 0 then 0
  else if 100000000000 ≤ balance then 10000
  else if balance < 100000000 then toU64 (balance * 1000 / 100000000)
  else
    let log_balance := lnScaled balance
    let log_min := 18420
    let log_max := 25328
    if log_min < log_max then
      toU64 ((log_balance - log_min) * 10000 / (log_max - log_min))
    else 5000

/-- Inverse-volatility normalization: `10000u32.saturating_sub(volatility.min(10000))`. -/
def normalized_inverse_volatility (volatility : Nat) : Nat :=
  10000 - min volatility 10000

/-- `update_performance.rs`: `calculate_performance_score`.  All weighted
components use `checked_mul`/`checked_div`/`checked_add`, each failure mapped
to `BalanceOverflow`. -/
def calculate_performance_score (lnScaled : Nat → Nat)
    (yield_rate balance volatility : Nat) : Except RebalancerError Nat := do
  let ny := normalized_yield yield_rate
  let nb := normalized_balance lnScaled balance
  let niv := normalized_inverse_volatility volatility
  let yield_component ← checked_mul64 .BalanceOverflow ny 4500
  let yield_component ← checked_div64 .BalanceOverflow yield_component 10000
  let balance_component ← checked_mul64 .BalanceOverflow nb 3500
  let balance_component ← checked_div64 .BalanceOverflow balance_component 10000
  let volatility_component ← checked_mul64 .BalanceOverflow niv 2000
  let volatility_component ← checked_div64 .BalanceOverflow volatility_component 10000
  let s ← checked_add64 .BalanceOverflow yield_component balance_component
  checked_add64 .BalanceOverflow s volatility_component

/-! ## Volatility-threshold and ranking unit (`execute_ranking.rs`) -/

/-- The accumulation loop of `calculate_average_volatility`: each strategy
contributes `volatility_score.checked_div(100)` (the divisor is the nonzero
literal 100, so that check cannot fire) through `checked_add` into the running
`(total_volatility, count)` pair. -/
def volatility_fold : List StrategyData → Nat × Nat → Except RebalancerError (Nat × Nat)
  | [], acc => .ok acc
  | strategy :: rest, (total, count) => do
    let volatility_pct := strategy.volatility_score / 100
    let total ← checked_add64 .MathOverflow total volatility_pct
    let count ← checked_add64 .MathOverflow count 1
    volatility_fold rest (total, count)

/-- `execute_ranking.rs`: `calculate_average_volatility`. -/
def calculate_average_volatility (strategies : List StrategyData) :
    Except RebalancerError Nat :=
  if strategies = [] then .error .InsufficientStrategies
  else do
    let (total, count) ← volatility_fold strategies (0, 0)
    let average ← checked_div64 .DivisionByZero total count
    .ok (if 100 < average then 100 else average)

/-- `execute_ranking.rs`: `calculate_dynamic_threshold`.  The final value is at
most 40, so the `as u8` cast is the identity. -/
def calculate_dynamic_threshold (strategies : List StrategyData) :
    Except RebalancerError Nat :=
  if strategies = [] then .error .InsufficientStrategies
  else do
    let avg ← calculate_average_volatility strategies
    let volatility_adjustment ← checked_mul32 .MathOverflow avg 20
    let volatility_adjustment ← checked_div64 .DivisionByZero volatility_adjustment 100
    let dynamic_threshold ← checked_add32 .MathOverflow 15 volatility_adjustment
    .ok (if dynamic_threshold < 10 then 10
         else if 40 < dynamic_threshold then 40
         else dynamic_threshold)

/-- The sort comparator of `calculate_percentile_rankings`: descending
performance score, then descending balance, then ascending volatility. -/
def ranking_cmp (a b : StrategyData) : Ordering :=
  ((compare b.performance_score a.performance_score).then
    (compare b.current_balance a.current_balance)).then
    (compare a.volatility_score b.volatility_score)

/-- The Boolean order corresponding to `ranking_cmp`, used for the stable sort
(`Vec::sort_by` is a stable merge sort, as is `List.mergeSort`). -/
def ranking_le (a b : StrategyData) : Bool := (ranking_cmp a b).isLE

/-- The rank-assignment loop of `calculate_percentile_rankings`: walking the
sorted list with its running `index`, set each percentile rank (a value at
most 100, so the `as u8` cast is the identity), overwrite the record's
threshold with the dynamic one, and collect underperformer ids. -/
def assign_ranks (dynamic_threshold total_strategies : Nat) :
    Nat → List StrategyData → List StrategyData × List Pubkey
  | _, [] => ([], [])
  | index, strategy :: rest =>
    let rank := if total_strategies = 1 then 50
      else (total_strategies - 1 - index) * 100 / (total_strategies - 1)
    let updated := { strategy with
      percentile_rank := rank, rebalance_threshold := dynamic_threshold }
    let is_under : Bool :=
      if total_strategies ≤ 4 then decide (rank < dynamic_threshold)
      else
        let threshold_strategies := max (total_strategies * dynamic_threshold / 100) 1
        decide (total_strategies - threshold_strategies ≤ index)
    let next := assign_ranks dynamic_threshold total_strategies (index + 1) rest
    (updated :: next.1, (if is_under then [strategy.strategy_id] else []) ++ next.2)

/-- `execute_ranking.rs`: `calculate_percentile_rankings`.  The source mutates
the passed vector and returns the underperformer ids; the embedding returns
the updated (sorted) vector together with those ids. -/
def calculate_percentile_rankings (strategies : List StrategyData) :
    Except RebalancerError (List StrategyData × List Pubkey) :=
  if strategies = [] then .error .InsufficientStrategies
  else
    match calculate_dynamic_threshold strategies with
    | .error e => .error e
    | .ok dynamic_threshold =>
      let sorted := strategies.mergeSort ranking_le
      .ok (assign_ranks dynamic_threshold strategies.length 0 sorted)

/-! ## Allocation unit (`redistribute_capital.rs`) -/

/-- `calculate_risk_adjustment`: all `u32` values; the scale to 5000–15000
cannot exceed `u32`, the multiplication by the (64-bit) risk tolerance is an
unchecked wrapping `u64` multiply, and the result is truncated to `u32`
before the upper `min`. -/
def calculate_risk_adjustment (volatility_score : Nat) (risk_limits : RiskLimits) : Nat :=
  let volatility_percentage := min volatility_score 10000
  let inverse_volatility := 10000 - volatility_percentage
  let min_multiplier := 5000
  let max_multiplier := 15000
  let risk_multiplier :=
    min_multiplier + toU32 (inverse_volatility * (max_multiplier - min_multiplier) / 10000)
  let final_multiplier := toU64 (risk_multiplier * risk_limits.risk_tolerance_bps) / 10000
  min (toU32 final_multiplier) max_multiplier

/-- The protocol-specific absolute minimum enforced by the allocation loop
(0.1 SOL for stable lending, 0.5 SOL for LP positions, 1 SOL for staking). -/
def protocol_minimum : ProtocolType → Nat
  | .StableLending _ _ _ => 100000000
  | .YieldFarming _ _ _ _ _ => 500000000
  | .LiquidStaking _ _ _ _ => 1000000000

/-- One iteration of the allocation loop of `calculate_optimal_allocation`:
performance-proportional share of the remaining capital, diversification
clamps against the original capital (wrapping `u64` multiplies), protocol
minimum, risk adjustment, cap at the remaining pool.  Returns the pushed
record, or `none` when the candidate is skipped. -/
def allocation_step (available_capital : Nat) (risk_limits : RiskLimits)
    (total_performance_score remaining_capital index : Nat)
    (strategy : StrategyPerformanceData) : Option CapitalAllocation :=
  let performance_allocation :=
    toU64 (remaining_capital * strategy.performance_score / total_performance_score)
  let max_single_allocation :=
    toU64 (available_capital * risk_limits.max_single_strategy_bps) / 10000
  let min_single_allocation :=
    toU64 (available_capital * risk_limits.min_single_strategy_bps) / 10000
  let amount1 := if max_single_allocation < performance_allocation
    then max_single_allocation else performance_allocation
  if amount1 < min_single_allocation then none
  else if amount1 < protocol_minimum strategy.protocol_type then none
  else
    let risk_adjustment := calculate_risk_adjustment strategy.volatility_score risk_limits
    let amount2 := toU64 (amount1 * risk_adjustment / 10000)
    let amount3 := if remaining_capital < amount2 then remaining_capital else amount2
    if 0 < amount3 then
      some { strategy_id := strategy.strategy_id, amount := amount3,
             allocation_type := if index < 3 then AllocationType.TopPerformer
               else AllocationType.RiskDiversification }
    else none

/-- The candidate loop of `calculate_optimal_allocation`: runs
`allocation_step` over the candidates with their enumeration index, breaking
once the remaining capital reaches zero, and subtracting each pushed amount
(`saturating_sub`, though the amount is already capped at the pool). -/
def allocation_loop (available_capital : Nat) (risk_limits : RiskLimits)
    (total_performance_score : Nat) :
    Nat → Nat → List StrategyPerformanceData → List CapitalAllocation × Nat
  | _, remaining_capital, [] => ([], remaining_capital)
  | index, remaining_capital, strategy :: rest =>
    if remaining_capital = 0 then ([], remaining_capital)
    else
      match allocation_step available_capital risk_limits total_performance_score
          remaining_capital index strategy with
      | none => allocation_loop available_capital risk_limits total_performance_score
          (index + 1) remaining_capital rest
      | some alloc =>
        let next := allocation_loop available_capital risk_limits total_performance_score
          (index + 1) (remaining_capital - alloc.amount) rest
        (alloc :: next.1, next.2)

/-- The dust step of `calculate_optimal_allocation`: add the leftover to the
first `TopPerformer` record (if any) with a `checked_add` that fails with
`BalanceOverflow`. -/
def add_dust_to_top_performer (dust : Nat) :
    List CapitalAllocation → Except RebalancerError (List CapitalAllocation)
  | [] => .ok []
  | alloc :: rest =>
    if alloc.allocation_type = AllocationType.TopPerformer then
      if alloc.amount + dust ≤ U64MAX then
        .ok ({ alloc with amount := alloc.amount + dust } :: rest)
      else .error .BalanceOverflow
    else
      match add_dust_to_top_performer dust rest with
      | .ok rest2 => .ok (alloc :: rest2)
      | .error e => .error e

/-- Sum of the amounts of an allocation batch. -/
def sum_amounts (allocations : List CapitalAllocation) : Nat :=
  (allocations.map (·.amount)).sum

/-- `redistribute_capital.rs`: `calculate_optimal_allocation`.  The fee
computations are unchecked (wrapping) `u64` multiplications, the fee
deductions are `saturating_sub`, the per-candidate score sum is taken in
`u128`. -/
def calculate_optimal_allocation (available_capital : Nat)
    (top_strategies : List StrategyPerformanceData) (risk_limits : RiskLimits) :
    Except RebalancerError (List CapitalAllocation) :=
  if available_capital = 0 then .error .InsufficientBalance
  else if top_strategies = [] then .error .InsufficientStrategies
  else
    let platform_fee := toU64 (available_capital * risk_limits.platform_fee_bps) / 10000
    let manager_fee := toU64 (available_capital * risk_limits.manager_fee_bps) / 10000
    let fee_allocations :=
      (if 0 < platform_fee then
        [{ strategy_id := risk_limits.platform_treasury, amount := platform_fee,
           allocation_type := AllocationType.PlatformFee }] else [])
      ++
      (if 0 < manager_fee then
        [{ strategy_id := risk_limits.manager_treasury, amount := manager_fee,
           allocation_type := AllocationType.ManagerIncentive }] else [])
    let remaining0 := available_capital - platform_fee - manager_fee
    let total_performance_score := toU128 ((top_strategies.map (·.performance_score)).sum)
    if total_performance_score = 0 then .error .InvalidPerformanceScore
    else
      let result := allocation_loop available_capital risk_limits
        total_performance_score 0 remaining0 top_strategies
      let allocations := fee_allocations ++ result.1
      if 1000000 < result.2 ∧ allocations ≠ [] then
        add_dust_to_top_performer result.2 allocations
      else .ok allocations

/-! ## Plan orchestrator (`redistribute_capital.rs`) -/

/-- The underperformer partition of `execute_complete_rebalancing`. -/
def underperformers_of (portfolio : Portfolio)
    (strategies : List StrategyPerformanceData) : List StrategyPerformanceData :=
  strategies.filter (fun s => s.percentile_rank < portfolio.rebalance_threshold)

/-- The top-performer partition of `execute_complete_rebalancing`:
`filter(rank ≥ 75).take(5)` — the first five qualifying strategies in input
order. -/
def top_performers_of (strategies : List StrategyPerformanceData) :
    List StrategyPerformanceData :=
  (strategies.filter (fun s => 75 ≤ s.percentile_rank)).take 5

/-- `calculate_expected_improvement`: 15% of the average score of the chosen
top performers (wrapping `u64` sum and multiply). -/
def calculate_expected_improvement (top_performers : List StrategyPerformanceData) : Nat :=
  if top_performers = [] then 0
  else
    let average_top_score :=
      toU64 ((top_performers.map (·.performance_score)).sum) / top_performers.length
    toU64 (average_top_score * 15) / 100

/-- `redistribute_capital.rs`: the rebalancing plan. -/
structure RebalancingPlan where
  extraction_targets : List Pubkey
  total_to_extract : Nat
  redistribution_plan : List CapitalAllocation
  estimated_fees : Nat
  expected_improvement : Nat
deriving DecidableEq, Repr

/-- `redistribute_capital.rs`: `execute_complete_rebalancing`. -/
def execute_complete_rebalancing (portfolio : Portfolio)
    (strategies : List StrategyPerformanceData) :
    Except RebalancerError RebalancingPlan :=
  let underperformers := underperformers_of portfolio strategies
  let top_performers := top_performers_of strategies
  if underperformers = [] then .error .InsufficientStrategies
  else if top_performers = [] then .error .InsufficientStrategies
  else
    let total_extractable :=
      toU64 ((underperformers.map (fun s => s.current_balance - 10000000)).sum)
    if ¬ 100000000 < total_extractable then .error .InsufficientBalance
    else
      match calculate_optimal_allocation total_extractable top_performers
          RiskLimits.default with
      | .error e => .error e
      | .ok allocations =>
        .ok { extraction_targets := underperformers.map (·.strategy_id),
              total_to_extract := total_extractable,
              redistribution_plan := allocations,
              estimated_fees := toU64 (total_extractable * 200) / 10000,
              expected_improvement := calculate_expected_improvement top_performers }

/-! ## Definitions taken from the specification's wording (for refinement
comparison against the code) -/

/-- Modelled from the spec: the average volatility named by the threshold
formula — "each volatility_score/100 truncated to a percent, summed and
integer-divided by count". -/
def average_volatility_spec (strategies : List StrategyData) : Nat :=
  (strategies.map (fun s => s.volatility_score / 100)).sum / strategies.length

/-- Modelled from the spec: the dynamic-threshold formula
"15 + (avg_volatility × 20 / 100) clamped to [10, 40]". -/
def threshold_of_avg (avg : Nat) : Nat :=
  let t := 15 + avg * 20 / 100
  if t < 10 then 10 else if 40 < t then 40 else t

/-- Modelled from the spec: the reading of the plan-orchestrator claim in
which the top performers are the five best qualifying strategies (highest
percentile rank first) rather than the first five in input order. -/
def spec_best_top_performers (strategies : List StrategyPerformanceData) :
    List StrategyPerformanceData :=
  ((strategies.filter (fun s => 75 ≤ s.percentile_rank)).mergeSort
    (fun a b => b.percentile_rank ≤ a.percentile_rank)).take 5


/-- The sort key of a strategy record: the fields the comparator reads,
plus the identifier (the fields `assign_ranks` never modifies). -/
def ranking_key (s : StrategyData) : Nat × Nat × Nat × Nat :=
  (s.performance_score, s.current_balance, s.volatility_score, s.strategy_id)

/-- The relation `ranking_le` decides: lexicographically, higher score first,
then higher balance, then lower volatility. -/
def ranking_le_prop (a b : StrategyData) : Prop :=
  b.performance_score < a.performance_score
  ∨ (b.performance_score = a.performance_score ∧
      (b.current_balance < a.current_balance
       ∨ (b.current_balance = a.current_balance ∧
          a.volatility_score ≤ b.volatility_score)))

/-! ## Concrete fixtures (inputs of the repository's own unit tests, used to
instantiate the theorems below) -/

/-- The four-strategy snapshot of the ranking unit test
(`test_real_ranking_implementation`). -/
def fourStrategySnapshot : List StrategyData :=
  [⟨1, 9500, 10000000000, 1000, 0, 25⟩,
   ⟨2, 7500, 5000000000, 3000, 0, 25⟩,
   ⟨3, 5000, 2000000000, 5000, 0, 25⟩,
   ⟨4, 2500, 1000000000, 7000, 0, 25⟩]

/-- The ranked output of `calculate_percentile_rankings` on
`fourStrategySnapshot`: dynamic threshold 23, percentile ranks 100/66/33/0. -/
def fourStrategyRanked : List StrategyData :=
  [⟨1, 9500, 10000000000, 1000, 100, 23⟩,
   ⟨2, 7500, 5000000000, 3000, 66, 23⟩,
   ⟨3, 5000, 2000000000, 5000, 33, 23⟩,
   ⟨4, 2500, 1000000000, 7000, 0, 23⟩]

/-- A portfolio snapshot with the default 25% rebalance threshold. -/
def planPortfolio : Portfolio :=
  ⟨11, 25, 7, 0, 0, 3600, 0, false, 200, 255⟩

/-- Seven strategies for the plan orchestrator: one underperformer (rank 10),
five rank-75 qualifiers in input order, and a best performer (rank 100,
score 9000) placed last. -/
def sevenStrategySnapshot : List StrategyPerformanceData :=
  [⟨1, 2000, 10000000000, 5000, .StableLending 1 1 1, 10⟩,
   ⟨2, 1000, 0, 0, .StableLending 1 1 1, 75⟩,
   ⟨3, 1000, 0, 0, .StableLending 1 1 1, 75⟩,
   ⟨4, 1000, 0, 0, .StableLending 1 1 1, 75⟩,
   ⟨5, 1000, 0, 0, .StableLending 1 1 1, 75⟩,
   ⟨6, 1000, 0, 0, .StableLending 1 1 1, 75⟩,
   ⟨7, 9000, 0, 0, .StableLending 1 1 1, 100⟩]

/-! ## Arithmetic helper lemmas -/

theorem toU64_eq_self {n : Nat} (h : n ≤ U64MAX) : toU64 n = n := by
  have h64 : (2 : Nat) ^ 64 = 18446744073709551616 := by norm_num
  unfold toU64
  apply Nat.mod_eq_of_lt
  unfold U64MAX at h
  omega

theorem toU32_eq_self {n : Nat} (h : n ≤ U32MAX) : toU32 n = n := by
  have h32 : (2 : Nat) ^ 32 = 4294967296 := by norm_num
  unfold toU32
  apply Nat.mod_eq_of_lt
  unfold U32MAX at h
  omega

theorem toU128_eq_self {n : Nat} (h : n < 2 ^ 128) : toU128 n = n :=
  Nat.mod_eq_of_lt h

theorem div_add_div_le (a b n : Nat) : a / n + b / n ≤ (a + b) / n := by
  rcases Nat.eq_zero_or_pos n with h | h
  · subst h; simp
  · rw [Nat.le_div_iff_mul_le h, Nat.add_mul]
    exact Nat.add_le_add (Nat.div_mul_le_self a n) (Nat.div_mul_le_self b n)

/-! ## Lemmas about the allocation unit -/

theorem allocation_step_amount_le {av tot rem idx : Nat} {L : RiskLimits}
    {s : StrategyPerformanceData} {alloc : CapitalAllocation}
    (h : allocation_step av L tot rem idx s = some alloc) :
    alloc.amount ≤ rem := by
  unfold allocation_step at h
  set pa := toU64 (rem * s.performance_score / tot) with hpa
  set mx := toU64 (av * L.max_single_strategy_bps) / 10000 with hmx
  set mn := toU64 (av * L.min_single_strategy_bps) / 10000 with hmn
  set a1 := if mx < pa then mx else pa with ha1
  set ra := calculate_risk_adjustment s.volatility_score L with hra
  set a2 := toU64 (a1 * ra / 10000) with ha2
  set a3 := if rem < a2 then rem else a2 with ha3
  have h3 : a3 ≤ rem := by
    rw [ha3]; split
    · exact Nat.le_refl _
    · omega
  by_cases hc1 : a1 < mn
  · rw [if_pos hc1] at h; exact absurd h (by simp)
  rw [if_neg hc1] at h
  by_cases hc2 : a1 < protocol_minimum s.protocol_type
  · rw [if_pos hc2] at h; exact absurd h (by simp)
  rw [if_neg hc2] at h
  by_cases hc3 : 0 < a3
  · rw [if_pos hc3] at h
    rw [Option.some.injEq] at h
    subst h
    exact h3
  · rw [if_neg hc3] at h; exact absurd h (by simp)

theorem allocation_loop_sum (av tot : Nat) (L : RiskLimits) :
    ∀ (l : List StrategyPerformanceData) (idx rem : Nat),
      sum_amounts (allocation_loop av L tot idx rem l).1 +
        (allocation_loop av L tot idx rem l).2 = rem := by
  intro l
  induction l with
  | nil => intro idx rem; simp [allocation_loop, sum_amounts]
  | cons s rest ih =>
    intro idx rem
    unfold allocation_loop
    split
    · simp [sum_amounts]
    · rcases hstep : allocation_step av L tot rem idx s with _ | alloc
      · simpa using ih (idx + 1) rem
      · have hle := allocation_step_amount_le hstep
        have := ih (idx + 1) (rem - alloc.amount)
        simp only [sum_amounts, List.map_cons, List.sum_cons] at this ⊢
        omega

theorem add_dust_sum {dust : Nat} :
    ∀ {l l' : List CapitalAllocation},
      add_dust_to_top_performer dust l = .ok l' →
      sum_amounts l' = sum_amounts l + dust ∨ sum_amounts l' = sum_amounts l := by
  intro l
  induction l with
  | nil =>
    intro l' h
    simp only [add_dust_to_top_performer] at h
    cases h
    right; rfl
  | cons a rest ih =>
    intro l' h
    simp only [add_dust_to_top_performer] at h
    split at h
    · split at h
      · cases h
        left
        simp [sum_amounts]
        omega
      · exact absurd h (by simp)
    · rcases hrec : add_dust_to_top_performer dust rest with e | rest2
      · rw [hrec] at h; exact absurd h (by simp)
      · rw [hrec] at h
        cases h
        rcases ih hrec with h1 | h1
        · left; simp [sum_amounts] at h1 ⊢; omega
        · right; simp [sum_amounts] at h1 ⊢; omega

theorem add_dust_ne_mathOverflow (dust : Nat) :
    ∀ (l : List CapitalAllocation),
      add_dust_to_top_performer dust l ≠ .error .MathOverflow := by
  intro l
  induction l with
  | nil => simp [add_dust_to_top_performer]
  | cons a rest ih =>
    simp only [add_dust_to_top_performer]
    split
    · split <;> simp
    · rcases hrec : add_dust_to_top_performer dust rest with e | rest2
      · simp only []
        intro hcontra
        have : e = RebalancerError.MathOverflow := by
          injection hcontra
        subst this
        exact ih hrec
      · simp

/-- Core soundness lemma for `calculate_optimal_allocation`: provided the two
fee multiplications fit in 64 bits and the fee rates sum to at most 100%, the
returned batch never sums to more than the submitted capital. -/
theorem calculate_optimal_allocation_sum_le
    {av : Nat} {cands : List StrategyPerformanceData} {L : RiskLimits}
    {l : List CapitalAllocation}
    (hp : av * L.platform_fee_bps ≤ U64MAX)
    (hm : av * L.manager_fee_bps ≤ U64MAX)
    (hpm : L.platform_fee_bps + L.manager_fee_bps ≤ 10000)
    (h : calculate_optimal_allocation av cands L = .ok l) :
    sum_amounts l ≤ av := by
  unfold calculate_optimal_allocation at h
  split at h
  · exact absurd h (by simp)
  split at h
  · exact absurd h (by simp)
  dsimp only [] at h
  split at h
  · exact absurd h (by simp)
  -- name the quantities of the source
  rw [toU64_eq_self hp, toU64_eq_self hm] at h
  set pf := av * L.platform_fee_bps / 10000 with hpf
  set mf := av * L.manager_fee_bps / 10000 with hmf
  have hfees : pf + mf ≤ av := by
    have h1 : pf + mf ≤ (av * L.platform_fee_bps + av * L.manager_fee_bps) / 10000 :=
      div_add_div_le _ _ _
    have h2 : av * L.platform_fee_bps + av * L.manager_fee_bps =
        av * (L.platform_fee_bps + L.manager_fee_bps) := by ring
    have h3 : av * (L.platform_fee_bps + L.manager_fee_bps) ≤ av * 10000 :=
      Nat.mul_le_mul_left av hpm
    have h4 : av * 10000 / 10000 = av := Nat.mul_div_cancel av (by norm_num)
    calc pf + mf ≤ (av * L.platform_fee_bps + av * L.manager_fee_bps) / 10000 := h1
      _ = av * (L.platform_fee_bps + L.manager_fee_bps) / 10000 := by rw [h2]
      _ ≤ av * 10000 / 10000 := Nat.div_le_div_right h3
      _ = av := h4
  have hloop := allocation_loop_sum av
    (toU128 ((cands.map (·.performance_score)).sum)) L cands 0 (av - pf - mf)
  set result := allocation_loop av L
    (toU128 ((cands.map (·.performance_score)).sum)) 0 (av - pf - mf) cands with hres
  set fee_allocations : List CapitalAllocation :=
      ((if 0 < pf then
          [{ strategy_id := L.platform_treasury, amount := pf,
             allocation_type := AllocationType.PlatformFee }] else [])
        ++
        (if 0 < mf then
          [{ strategy_id := L.manager_treasury, amount := mf,
             allocation_type := AllocationType.ManagerIncentive }] else []))
      with hfa
  have hfee_sum : sum_amounts fee_allocations = pf + mf := by
    rw [hfa]
    by_cases hp0 : 0 < pf <;> by_cases hm0 : 0 < mf <;>
      simp [sum_amounts, hp0, hm0] <;> omega
  have hcat : sum_amounts (fee_allocations ++ result.1) =
      pf + mf + sum_amounts result.1 := by
    simp only [sum_amounts, List.map_append, List.sum_append] at hfee_sum ⊢
    omega
  split at h
  · -- dust branch
    rcases add_dust_sum h with hsum | hsum <;> rw [hsum, hcat] <;> omega
  · -- no-dust branch
    injection h with h
    subst h
    rw [hcat]
    omega

theorem calculate_optimal_allocation_ne_mathOverflow
    (av : Nat) (cands : List StrategyPerformanceData) (L : RiskLimits) :
    calculate_optimal_allocation av cands L ≠ .error .MathOverflow := by
  intro h
  unfold calculate_optimal_allocation at h
  split at h
  · simp at h
  split at h
  · simp at h
  dsimp only [] at h
  split at h
  · simp at h
  split at h <;> split at h <;> split at h <;>
    first
      | exact add_dust_ne_mathOverflow _ _ h
      | simp at h

/-! ## Lemmas about the scoring unit -/

theorem bind_ok_eq {ε α β : Type} (a : α) (f : α → Except ε β) :
    (Except.ok a : Except ε α) >>= f = f a := rfl

theorem bind_err_eq {ε α β : Type} (e : ε) (f : α → Except ε β) :
    (Except.error e : Except ε α) >>= f = .error e := rfl

theorem checked_mul64_ok {e : RebalancerError} {a b : Nat} (h : a * b ≤ U64MAX) :
    checked_mul64 e a b = .ok (a * b) := by
  unfold checked_mul64; exact if_pos h

theorem checked_mul64_err {e : RebalancerError} {a b : Nat} (h : ¬ a * b ≤ U64MAX) :
    checked_mul64 e a b = .error e := by
  unfold checked_mul64; exact if_neg h

theorem checked_div64_ok {e : RebalancerError} {a b : Nat} (h : b ≠ 0) :
    checked_div64 e a b = .ok (a / b) := by
  unfold checked_div64; exact if_neg h

theorem checked_add64_ok {e : RebalancerError} {a b : Nat} (h : a + b ≤ U64MAX) :
    checked_add64 e a b = .ok (a + b) := by
  unfold checked_add64; exact if_pos h

theorem normalized_yield_le (y : Nat) : normalized_yield y ≤ 10000 := by
  unfold normalized_yield
  split
  · exact Nat.le_refl _
  · rename_i hy
    have h1 : toU64 (y * 10000 / 50000) ≤ y * 10000 / 50000 := Nat.mod_le _ _
    have h2 : y * 10000 ≤ 50000 * 10000 := by omega
    have h3 : y * 10000 / 50000 ≤ 50000 * 10000 / 50000 := Nat.div_le_div_right h2
    omega

theorem normalized_inverse_volatility_le (v : Nat) :
    normalized_inverse_volatility v ≤ 10000 := by
  unfold normalized_inverse_volatility; omega

theorem normalized_balance_le {f : Nat → Nat} {b : Nat} (h : f b ≤ 25328) :
    normalized_balance f b ≤ 10000 := by
  unfold normalized_balance
  split
  · omega
  split
  · exact Nat.le_refl _
  split
  · rename_i h0 hcap hlow
    have h1 : toU64 (b * 1000 / 100000000) ≤ b * 1000 / 100000000 := Nat.mod_le _ _
    have h2 : b * 1000 / 100000000 < 1000 :=
      Nat.div_lt_of_lt_mul (by omega)
    omega
  · dsimp only []
    rw [if_pos (by norm_num)]
    have h1 : toU64 ((f b - 18420) * 10000 / (25328 - 18420)) ≤
        (f b - 18420) * 10000 / (25328 - 18420) := Nat.mod_le _ _
    have h2 : (f b - 18420) * 10000 ≤ 6908 * 10000 := by omega
    have h3 : (f b - 18420) * 10000 / (25328 - 18420) ≤ 6908 * 10000 / 6908 := by
      norm_num
      exact Nat.div_le_div_right h2
    have h4 : 6908 * 10000 / 6908 = 10000 := by norm_num
    omega

theorem calculate_performance_score_eq_ok {f : Nat → Nat} (y b v : Nat)
    (hnb : normalized_balance f b * 3500 ≤ U64MAX) :
    calculate_performance_score f y b v =
      .ok (normalized_yield y * 4500 / 10000 + normalized_balance f b * 3500 / 10000 +
           normalized_inverse_volatility v * 2000 / 10000) := by
  have hny := normalized_yield_le y
  have hniv := normalized_inverse_volatility_le v
  have h1 : normalized_yield y * 4500 ≤ U64MAX := by
    have := Nat.mul_le_mul_right 4500 hny
    have hh : (10000 : Nat) * 4500 ≤ U64MAX := by norm_num [U64MAX]
    omega
  have h2 : normalized_inverse_volatility v * 2000 ≤ U64MAX := by
    have := Nat.mul_le_mul_right 2000 hniv
    have hh : (10000 : Nat) * 2000 ≤ U64MAX := by norm_num [U64MAX]
    omega
  have h3 : normalized_yield y * 4500 / 10000 + normalized_balance f b * 3500 / 10000 ≤
      U64MAX := by
    have ha : normalized_yield y * 4500 / 10000 ≤ 10000 * 4500 / 10000 :=
      Nat.div_le_div_right (Nat.mul_le_mul_right 4500 hny)
    have hb : normalized_balance f b * 3500 / 10000 ≤ U64MAX / 10000 :=
      Nat.div_le_div_right hnb
    have hc : (10000 : Nat) * 4500 / 10000 + U64MAX / 10000 ≤ U64MAX := by norm_num [U64MAX]
    omega
  have h4 : normalized_yield y * 4500 / 10000 + normalized_balance f b * 3500 / 10000 +
      normalized_inverse_volatility v * 2000 / 10000 ≤ U64MAX := by
    have ha : normalized_yield y * 4500 / 10000 ≤ 10000 * 4500 / 10000 :=
      Nat.div_le_div_right (Nat.mul_le_mul_right 4500 hny)
    have hb : normalized_balance f b * 3500 / 10000 ≤ U64MAX / 10000 :=
      Nat.div_le_div_right hnb
    have hc : normalized_inverse_volatility v * 2000 / 10000 ≤ 10000 * 2000 / 10000 :=
      Nat.div_le_div_right (Nat.mul_le_mul_right 2000 hniv)
    have hd : (10000 : Nat) * 4500 / 10000 + U64MAX / 10000 + 10000 * 2000 / 10000 ≤
        U64MAX := by norm_num [U64MAX]
    omega
  have hten : (10000 : Nat) ≠ 0 := by norm_num
  simp only [calculate_performance_score, checked_mul64_ok h1, checked_mul64_ok hnb,
    checked_mul64_ok h2, checked_div64_ok hten, checked_add64_ok h3, checked_add64_ok h4,
    bind_ok_eq]

theorem calculate_performance_score_eq_err {f : Nat → Nat} (y b v : Nat)
    (hnb : ¬ normalized_balance f b * 3500 ≤ U64MAX) :
    calculate_performance_score f y b v = .error .BalanceOverflow := by
  have hny := normalized_yield_le y
  have h1 : normalized_yield y * 4500 ≤ U64MAX := by
    have := Nat.mul_le_mul_right 4500 hny
    have hh : (10000 : Nat) * 4500 ≤ U64MAX := by norm_num [U64MAX]
    omega
  have hten : (10000 : Nat) ≠ 0 := by norm_num
  simp only [calculate_performance_score, checked_mul64_ok h1, checked_div64_ok hten,
    checked_mul64_err hnb, bind_ok_eq, bind_err_eq]

/-! ## Claim C1 -/

/-- C1 counterexample: with capital 50000000, one stable-lending candidate
(nonzero performance score) and a fee-free risk configuration,
`calculate_optimal_allocation` skips the single candidate at the protocol
floor and returns an empty batch, so the summed amounts (0) are silently
smaller than the submitted capital — refuting the claim that the sum always
equals the capital exactly. -/
theorem alloc_sum_shortfall_cex :
    calculate_optimal_allocation 50000000
      [⟨1, 1, 0, 0, .StableLending 1 1 1, 0⟩] ⟨10000, 0, 0, 0, 10000, 0, 0⟩ = .ok []
    ∧ sum_amounts [] ≠ 50000000 := by
  decide

/-- C1 (amended): for every positive capital, non-empty candidate list with
nonzero total performance score, and risk configuration whose two fee rates
sum to at most 100% and whose fee multiplications fit in 64 bits, the batch
returned by `calculate_optimal_allocation` sums to AT MOST the submitted
capital; it can fall short (skipped candidates, downward risk adjustment,
unabsorbed dust) but never exceeds it. -/
theorem alloc_sum_le_capital_thm
    {av : Nat} {cands : List StrategyPerformanceData} {L : RiskLimits}
    {l : List CapitalAllocation}
    (h : calculate_optimal_allocation av cands L = .ok l)
    (hp : av * L.platform_fee_bps ≤ U64MAX)
    (hm : av * L.manager_fee_bps ≤ U64MAX)
    (hpm : L.platform_fee_bps + L.manager_fee_bps ≤ 10000) :
    sum_amounts l ≤ av :=
  calculate_optimal_allocation_sum_le hp hm hpm h

/-- Witness for the amended C1 theorem at a concrete input. -/
theorem alloc_sum_le_capital_thm_witness :
    sum_amounts [⟨1, 306250000, .TopPerformer⟩, ⟨2, 93750000, .TopPerformer⟩] ≤
      400000000 :=
  @alloc_sum_le_capital_thm 400000000
    [⟨1, 1, 0, 0, .StableLending 1 1 1, 0⟩, ⟨2, 3, 0, 10000, .StableLending 1 1 1, 0⟩]
    ⟨10000, 0, 0, 0, 10000, 0, 0⟩
    [⟨1, 306250000, .TopPerformer⟩, ⟨2, 93750000, .TopPerformer⟩]
    (by decide) (by decide) (by decide) (by decide)

/-! ## Claim C2 -/

/-- C2 counterexample: a stable-lending candidate passes the 0.1-SOL floor
with a clamped share of 187500000, but the risk-adjustment multiplier (50%
at maximal volatility) then cuts the emitted amount to 93750000 — strictly
below the candidate's protocol floor — and the record is still emitted. -/
theorem alloc_floor_cex :
    calculate_optimal_allocation 400000000
      [⟨1, 1, 0, 0, .StableLending 1 1 1, 0⟩,
       ⟨2, 3, 0, 10000, .StableLending 1 1 1, 0⟩]
      ⟨10000, 0, 0, 0, 10000, 0, 0⟩ =
      .ok [⟨1, 306250000, .TopPerformer⟩, ⟨2, 93750000, .TopPerformer⟩]
    ∧ 93750000 < protocol_minimum (.StableLending 1 1 1) := by
  decide

/-- C2 (amended): the protocol floor is enforced on the
performance-weighted, diversification-clamped share BEFORE risk adjustment:
whenever the allocation loop emits a record for a candidate, there is a
share at or above both the configured minimum and the candidate's protocol
floor, and the emitted amount is that share risk-adjusted and capped at the
remaining pool — which can end up below the floor. -/
theorem alloc_floor_pre_adjustment_thm
    {av tot rem idx : Nat} {L : RiskLimits} {s : StrategyPerformanceData}
    {alloc : CapitalAllocation}
    (h : allocation_step av L tot rem idx s = some alloc) :
    ∃ share,
      protocol_minimum s.protocol_type ≤ share ∧
      toU64 (av * L.min_single_strategy_bps) / 10000 ≤ share ∧
      alloc.strategy_id = s.strategy_id ∧
      alloc.amount =
        min (toU64 (share * calculate_risk_adjustment s.volatility_score L / 10000)) rem ∧
      0 < alloc.amount := by
  unfold allocation_step at h
  set pa := toU64 (rem * s.performance_score / tot) with hpa
  set mx := toU64 (av * L.max_single_strategy_bps) / 10000 with hmx
  set mn := toU64 (av * L.min_single_strategy_bps) / 10000 with hmn
  set a1 := if mx < pa then mx else pa with ha1
  set ra := calculate_risk_adjustment s.volatility_score L with hra
  set a2 := toU64 (a1 * ra / 10000) with ha2
  set a3 := if rem < a2 then rem else a2 with ha3
  by_cases hc1 : a1 < mn
  · rw [if_pos hc1] at h; exact absurd h (by simp)
  rw [if_neg hc1] at h
  by_cases hc2 : a1 < protocol_minimum s.protocol_type
  · rw [if_pos hc2] at h; exact absurd h (by simp)
  rw [if_neg hc2] at h
  by_cases hc3 : 0 < a3
  · rw [if_pos hc3] at h
    rw [Option.some.injEq] at h
    subst h
    refine ⟨a1, by omega, by omega, rfl, ?_, hc3⟩
    show a3 = min a2 rem
    rw [ha3]
    split
    · omega
    · omega
  · rw [if_neg hc3] at h; exact absurd h (by simp)

/-- Witness for the amended C2 theorem at the counterexample's second
candidate. -/
theorem alloc_floor_pre_adjustment_thm_witness :
    ∃ share,
      protocol_minimum (ProtocolType.StableLending 1 1 1) ≤ share ∧
      toU64 (400000000 * 0) / 10000 ≤ share ∧
      (CapitalAllocation.mk 2 93750000 .TopPerformer).strategy_id = 2 ∧
      (CapitalAllocation.mk 2 93750000 .TopPerformer).amount =
        min (toU64 (share * calculate_risk_adjustment 10000 ⟨10000, 0, 0, 0, 10000, 0, 0⟩ /
          10000)) 250000000 ∧
      0 < (CapitalAllocation.mk 2 93750000 .TopPerformer).amount :=
  @alloc_floor_pre_adjustment_thm 400000000 4 250000000 1
    ⟨10000, 0, 0, 0, 10000, 0, 0⟩
    ⟨2, 3, 0, 10000, .StableLending 1 1 1, 0⟩
    ⟨2, 93750000, .TopPerformer⟩
    (by decide)

/-! ## Claim C3 -/

/-- C3: the claim states the risk-adjustment multiplier is clamped to the
band [5000, 15000] at both ends, and the code's own comment asserts the
range is 50%–150%; but `calculate_risk_adjustment` only applies the upper
`min` — at maximal volatility with the DEFAULT risk-tolerance configuration
(80%) it returns 4000, below the lower band bound. -/
theorem risk_adjustment_band_violation_thm :
    calculate_risk_adjustment 10000 RiskLimits.default = 4000 ∧ 4000 < 5000 := by
  decide

/-! ## Claim C4 -/

/-- C4 counterexample: at capital 2^63 with a 4-bps platform fee the fee
multiplication `capital * platform_fee_bps` overflows 64 bits, yet
`calculate_optimal_allocation` does not abort with an overflow error — the
product wraps (to 0 here) and the call succeeds. -/
theorem alloc_unchecked_overflow_cex :
    calculate_optimal_allocation (2 ^ 63)
      [⟨1, 1, 0, 0, .StableLending 1 1 1, 0⟩] ⟨10000, 0, 4, 0, 10000, 0, 0⟩ = .ok []
    ∧ U64MAX < 2 ^ 63 * 4 := by
  decide

/-- C4 (amended): the two engine entry points differ. Every multiply, divide
and add in `calculate_performance_score` is checked and an overflowing
intermediate aborts the call with an overflow error (the balance-component
multiplication is the only one that can overflow). In
`calculate_optimal_allocation`, however, the fee, bound, and share
computations are wrapping `u64` arithmetic and the capital updates saturate,
so the call NEVER aborts with a math-overflow error. -/
theorem checked_arithmetic_split_thm :
    (∀ (av : Nat) (cands : List StrategyPerformanceData) (L : RiskLimits),
      calculate_optimal_allocation av cands L ≠ .error .MathOverflow)
    ∧ ∀ (f : Nat → Nat) (y b v : Nat),
        calculate_performance_score f y b v = .error .BalanceOverflow ↔
          U64MAX < normalized_balance f b * 3500 := by
  constructor
  · exact calculate_optimal_allocation_ne_mathOverflow
  · intro f y b v
    constructor
    · intro h
      by_contra hnb
      rw [calculate_performance_score_eq_ok y b v (by omega)] at h
      exact absurd h (by simp)
    · intro h
      exact calculate_performance_score_eq_err y b v (by omega)

/-! ## Claim C10 -/

/-- C10: for every positive capital, non-empty candidate list with nonzero
total score, and configuration with `platform_fee_bps + manager_fee_bps ≤
10000` whose fee multiplications do not overflow 64 bits, the batch returned
by `calculate_optimal_allocation` sums to at most the submitted capital:
each per-strategy amount is capped at the remaining pool before being
subtracted, so the engine may under-allocate but never over-allocates. -/
theorem alloc_no_overallocation_thm
    {av : Nat} {cands : List StrategyPerformanceData} {L : RiskLimits}
    {l : List CapitalAllocation}
    (h : calculate_optimal_allocation av cands L = .ok l)
    (hp : av * L.platform_fee_bps ≤ U64MAX)
    (hm : av * L.manager_fee_bps ≤ U64MAX)
    (hpm : L.platform_fee_bps + L.manager_fee_bps ≤ 10000) :
    sum_amounts l ≤ av :=
  calculate_optimal_allocation_sum_le hp hm hpm h

/-- Witness for C10 at the concrete input of the repository's own
allocation unit test (10 SOL, three candidates, default risk limits). -/
theorem alloc_no_overallocation_thm_witness :
    sum_amounts
      [⟨0, 50000000, .PlatformFee⟩, ⟨0, 150000000, .ManagerIncentive⟩,
       ⟨1, 6894758401, .TopPerformer⟩, ⟨2, 1893546666, .TopPerformer⟩,
       ⟨3, 1011694933, .TopPerformer⟩] ≤ 10000000000 :=
  @alloc_no_overallocation_thm 10000000000
    [⟨1, 8000, 1000000000, 2000, .StableLending 1 7500 1, 90⟩,
     ⟨2, 7000, 2000000000, 3000, .YieldFarming 1 3 1 2 300, 85⟩,
     ⟨3, 6000, 500000000, 4000, .LiquidStaking 1 500 1 10, 80⟩]
    RiskLimits.default
    [⟨0, 50000000, .PlatformFee⟩, ⟨0, 150000000, .ManagerIncentive⟩,
     ⟨1, 6894758401, .TopPerformer⟩, ⟨2, 1893546666, .TopPerformer⟩,
     ⟨3, 1011694933, .TopPerformer⟩]
    (by decide) (by decide) (by decide) (by decide)

/-! ## Claim C5 -/

/-- C5: for every valid input (yield rate at most 50000 bp, any balance,
volatility at most 10000) — and with the floating-point log value of the
mid-range balance bounded by its upper endpoint constant, as the monotone
`f64` logarithm guarantees — `calculate_performance_score` succeeds with a
value in [0, 10000]; moreover the score of (50000, balance at or above the
100-SOL cap, 0) is exactly 10000, and the score of (10000, 0, 5000) is
exactly 1900. -/
theorem score_bounds_and_exact_values_thm
    (f : Nat → Nat) (y b v : Nat)
    (hy : y ≤ 50000) (hv : v ≤ 10000) (hf : f b ≤ 25328) :
    (∃ s, calculate_performance_score f y b v = .ok s ∧ s ≤ 10000)
    ∧ (100000000000 ≤ b → calculate_performance_score f 50000 b 0 = .ok 10000)
    ∧ calculate_performance_score f 10000 0 5000 = .ok 1900 := by
  have hnb := normalized_balance_le hf
  have hmul : normalized_balance f b * 3500 ≤ U64MAX := by
    have := Nat.mul_le_mul_right 3500 hnb
    have hh : (10000 : Nat) * 3500 ≤ U64MAX := by norm_num [U64MAX]
    omega
  refine ⟨⟨_, calculate_performance_score_eq_ok y b v hmul, ?_⟩, ?_, ?_⟩
  · have ha : normalized_yield y * 4500 / 10000 ≤ 10000 * 4500 / 10000 :=
      Nat.div_le_div_right (Nat.mul_le_mul_right 4500 (normalized_yield_le y))
    have hb : normalized_balance f b * 3500 / 10000 ≤ 10000 * 3500 / 10000 :=
      Nat.div_le_div_right (Nat.mul_le_mul_right 3500 hnb)
    have hc : normalized_inverse_volatility v * 2000 / 10000 ≤ 10000 * 2000 / 10000 :=
      Nat.div_le_div_right
        (Nat.mul_le_mul_right 2000 (normalized_inverse_volatility_le v))
    norm_num at ha hb hc
    omega
  · intro hcap
    have hb10000 : normalized_balance f b = 10000 := by
      unfold normalized_balance
      rw [if_neg (by omega), if_pos hcap]
    rw [calculate_performance_score_eq_ok 50000 b 0 (by rw [hb10000]; norm_num [U64MAX])]
    rw [hb10000]
    norm_num [normalized_yield, normalized_inverse_volatility, toU64]
  · have hb0 : normalized_balance f 0 = 0 := by
      unfold normalized_balance
      rw [if_pos rfl]
    rw [calculate_performance_score_eq_ok 10000 0 5000 (by rw [hb0]; norm_num [U64MAX])]
    rw [hb0]
    norm_num [normalized_yield, normalized_inverse_volatility, toU64]

/-- Witness for C5 at yield 10000, the 100-SOL cap balance, volatility 5000,
with a concrete bounded stand-in for the scaled logarithm. -/
theorem score_bounds_and_exact_values_thm_witness :
    (∃ s, calculate_performance_score (fun _ => 20000) 10000 100000000000 5000 = .ok s ∧
      s ≤ 10000)
    ∧ (100000000000 ≤ 100000000000 →
        calculate_performance_score (fun _ => 20000) 50000 100000000000 0 = .ok 10000)
    ∧ calculate_performance_score (fun _ => 20000) 10000 0 5000 = .ok 1900 :=
  score_bounds_and_exact_values_thm (fun _ => 20000) 10000 100000000000 5000
    (by decide) (by decide) (by decide)

/-! ## Lemmas about the volatility-threshold unit -/

theorem volatility_fold_ok :
    ∀ (l : List StrategyData) (total count : Nat),
      total + (l.map (fun s => s.volatility_score / 100)).sum ≤ U64MAX →
      count + l.length ≤ U64MAX →
      volatility_fold l (total, count) =
        .ok (total + (l.map (fun s => s.volatility_score / 100)).sum,
             count + l.length) := by
  intro l
  induction l with
  | nil => intro total count _ _; simp [volatility_fold]
  | cons s rest ih =>
    intro total count htot hcnt
    simp only [List.map_cons, List.sum_cons, List.length_cons] at htot hcnt ⊢
    have h1 : total + s.volatility_score / 100 ≤ U64MAX := by omega
    have h2 : count + 1 ≤ U64MAX := by omega
    simp only [volatility_fold, checked_add64_ok h1, checked_add64_ok h2, bind_ok_eq]
    rw [ih (total + s.volatility_score / 100) (count + 1) (by omega) (by omega)]
    congr 2 <;> omega

theorem sum_vol_pct_le {l : List StrategyData}
    (hv : ∀ s ∈ l, s.volatility_score ≤ 10000) :
    (l.map (fun s => s.volatility_score / 100)).sum ≤ 100 * l.length := by
  induction l with
  | nil => simp
  | cons s rest ih =>
    simp only [List.map_cons, List.sum_cons, List.length_cons]
    have h1 : s.volatility_score ≤ 10000 := hv s (by simp)
    have h2 : s.volatility_score / 100 ≤ 10000 / 100 :=
      Nat.div_le_div_right h1
    have h3 := ih (fun x hx => hv x (by simp [hx]))
    norm_num at h2
    omega

theorem calculate_average_volatility_ok {l : List StrategyData}
    (hne : l ≠ []) (hv : ∀ s ∈ l, s.volatility_score ≤ 10000)
    (hlen : l.length ≤ 2 ^ 32) :
    calculate_average_volatility l = .ok (average_volatility_spec l)
    ∧ average_volatility_spec l ≤ 100 := by
  have hsum := sum_vol_pct_le hv
  have hlen0 : 0 < l.length := List.length_pos.mpr hne
  have havg : average_volatility_spec l ≤ 100 := by
    unfold average_volatility_spec
    have h1 : (l.map (fun s => s.volatility_score / 100)).sum / l.length ≤
        100 * l.length / l.length := Nat.div_le_div_right hsum
    rw [Nat.mul_div_cancel 100 hlen0] at h1
    exact h1
  constructor
  · unfold calculate_average_volatility
    rw [if_neg hne]
    have hWtot : 0 + (l.map (fun s => s.volatility_score / 100)).sum ≤ U64MAX := by
      have : 100 * l.length ≤ 100 * 2 ^ 32 := by omega
      have hh : 100 * 2 ^ 32 ≤ U64MAX := by norm_num [U64MAX]
      omega
    have hWcnt : 0 + l.length ≤ U64MAX := by
      have hh : (2 : Nat) ^ 32 ≤ U64MAX := by norm_num [U64MAX]
      omega
    rw [volatility_fold_ok l 0 0 hWtot hWcnt]
    rw [bind_ok_eq]
    dsimp only []
    rw [checked_div64_ok (by omega), bind_ok_eq]
    simp only [Nat.zero_add]
    rw [if_neg (by unfold average_volatility_spec at havg; omega)]
    unfold average_volatility_spec
    rfl
  · exact havg

theorem calculate_dynamic_threshold_ok {l : List StrategyData}
    (hne : l ≠ []) (hv : ∀ s ∈ l, s.volatility_score ≤ 10000)
    (hlen : l.length ≤ 2 ^ 32) :
    calculate_dynamic_threshold l = .ok (threshold_of_avg (average_volatility_spec l)) := by
  obtain ⟨havgok, havg⟩ := calculate_average_volatility_ok hne hv hlen
  set a := average_volatility_spec l with ha
  unfold calculate_dynamic_threshold
  rw [if_neg hne, havgok, bind_ok_eq]
  have h1 : a * 20 ≤ U32MAX := by
    have hh : (100 : Nat) * 20 ≤ U32MAX := by norm_num [U32MAX]
    have := Nat.mul_le_mul_right 20 havg
    omega
  unfold checked_mul32
  rw [if_pos h1, bind_ok_eq]
  rw [checked_div64_ok (by norm_num), bind_ok_eq]
  have h2 : 15 + a * 20 / 100 ≤ U32MAX := by
    have hd : a * 20 / 100 ≤ 2000 / 100 :=
      Nat.div_le_div_right (by omega : a * 20 ≤ 2000)
    have hh : (15 : Nat) + 20 ≤ U32MAX := by norm_num [U32MAX]
    omega
  unfold checked_add32
  rw [if_pos h2, bind_ok_eq]
  unfold threshold_of_avg
  rfl

theorem dynamic_threshold_bounds {l : List StrategyData} {t : Nat}
    (h : calculate_dynamic_threshold l = .ok t) : 10 ≤ t ∧ t ≤ 40 := by
  unfold calculate_dynamic_threshold at h
  split at h
  · exact absurd h (by simp)
  rcases hcav : calculate_average_volatility l with e | avg <;> rw [hcav] at h
  · rw [bind_err_eq] at h; exact absurd h (by simp)
  rw [bind_ok_eq] at h
  unfold checked_mul32 at h
  split at h
  · rw [bind_ok_eq] at h
    rw [checked_div64_ok (by norm_num), bind_ok_eq] at h
    unfold checked_add32 at h
    split at h
    · rw [bind_ok_eq] at h
      injection h with h
      subst h
      split
      · omega
      split
      · omega
      · rename_i h10 h40
        omega
    · rw [bind_err_eq] at h; exact absurd h (by simp)
  · rw [bind_err_eq] at h; exact absurd h (by simp)

/-! ## Claim C6 -/

/-- C6: for every non-empty list of strategies with in-range volatility
scores (and fewer than 2^32 entries), `calculate_dynamic_threshold` returns
exactly `15 + (avg_volatility × 20 / 100)` clamped to [10, 40], where
`avg_volatility` is the integer average of `volatility_score / 100`; the
formula sends average 0 to 15, 100 to 35, 40 to 23, always lands in
[10, 40], and is monotone in the average; the empty list fails. -/
theorem dynamic_threshold_formula_thm (l : List StrategyData)
    (hne : l ≠ []) (hv : ∀ s ∈ l, s.volatility_score ≤ 10000)
    (hlen : l.length ≤ 2 ^ 32) :
    calculate_dynamic_threshold l = .ok (threshold_of_avg (average_volatility_spec l))
    ∧ threshold_of_avg 0 = 15
    ∧ threshold_of_avg 100 = 35
    ∧ threshold_of_avg 40 = 23
    ∧ (∀ a, 10 ≤ threshold_of_avg a ∧ threshold_of_avg a ≤ 40)
    ∧ (∀ a b, a ≤ b → threshold_of_avg a ≤ threshold_of_avg b)
    ∧ calculate_dynamic_threshold ([] : List StrategyData) =
        .error .InsufficientStrategies := by
  refine ⟨calculate_dynamic_threshold_ok hne hv hlen, by decide, by decide, by decide,
    ?_, ?_, by decide⟩
  · intro a
    unfold threshold_of_avg
    dsimp only []
    rw [if_neg (by omega)]
    split <;> omega
  · intro a b hab
    have hd : a * 20 / 100 ≤ b * 20 / 100 :=
      Nat.div_le_div_right (Nat.mul_le_mul_right 20 hab)
    unfold threshold_of_avg
    dsimp only []
    have h1 : ¬ (15 + a * 20 / 100 < 10) := by omega
    have h2 : ¬ (15 + b * 20 / 100 < 10) := by omega
    rw [if_neg h1, if_neg h2]
    split <;> split <;> omega

/-- Witness for C6 at a single strategy with 40% average volatility. -/
theorem dynamic_threshold_formula_thm_witness :
    calculate_dynamic_threshold [⟨1, 8000, 1000000000, 4000, 0, 25⟩] =
      .ok (threshold_of_avg (average_volatility_spec [⟨1, 8000, 1000000000, 4000, 0, 25⟩]))
    ∧ threshold_of_avg 0 = 15
    ∧ threshold_of_avg 100 = 35
    ∧ threshold_of_avg 40 = 23
    ∧ (∀ a, 10 ≤ threshold_of_avg a ∧ threshold_of_avg a ≤ 40)
    ∧ (∀ a b, a ≤ b → threshold_of_avg a ≤ threshold_of_avg b)
    ∧ calculate_dynamic_threshold ([] : List StrategyData) =
        .error .InsufficientStrategies :=
  dynamic_threshold_formula_thm [⟨1, 8000, 1000000000, 4000, 0, 25⟩]
    (by decide) (by decide) (by decide)

/-! ## Lemmas about the ranking unit -/

theorem then_lt (o : Ordering) : Ordering.lt.then o = .lt := rfl

theorem then_gt (o : Ordering) : Ordering.gt.then o = .gt := rfl

theorem then_eq (o : Ordering) : Ordering.eq.then o = o := rfl

theorem ranking_le_iff (a b : StrategyData) :
    ranking_le a b = true ↔ ranking_le_prop a b := by
  unfold ranking_le ranking_cmp ranking_le_prop
  rcases Nat.lt_trichotomy b.performance_score a.performance_score with h1 | h1 | h1
  · rw [Nat.compare_eq_lt.mpr h1, then_lt, then_lt]
    simp [Ordering.isLE]
    try omega
  · rw [h1, Nat.compare_eq_eq.mpr rfl, then_eq]
    rcases Nat.lt_trichotomy b.current_balance a.current_balance with h2 | h2 | h2
    · rw [Nat.compare_eq_lt.mpr h2, then_lt]
      simp [Ordering.isLE]
      try omega
    · rw [h2, Nat.compare_eq_eq.mpr rfl, then_eq]
      rcases Nat.lt_trichotomy a.volatility_score b.volatility_score with h3 | h3 | h3
      · rw [Nat.compare_eq_lt.mpr h3]
        simp [Ordering.isLE]
        try omega
      · rw [h3, Nat.compare_eq_eq.mpr rfl]
        simp [Ordering.isLE]
        try omega
      · rw [Nat.compare_eq_gt.mpr h3]
        simp [Ordering.isLE]
        try omega
    · rw [Nat.compare_eq_gt.mpr h2, then_gt]
      simp [Ordering.isLE]
      try omega
  · rw [Nat.compare_eq_gt.mpr h1, then_gt, then_gt]
    simp [Ordering.isLE]
    try omega

theorem ranking_le_trans :
    ∀ (a b c : StrategyData),
      ranking_le a b = true → ranking_le b c = true → ranking_le a c = true := by
  intro a b c hab hbc
  rw [ranking_le_iff] at hab hbc ⊢
  unfold ranking_le_prop at hab hbc ⊢
  omega

theorem ranking_le_total :
    ∀ (a b : StrategyData), (ranking_le a b || ranking_le b a) = true := by
  intro a b
  rw [Bool.or_eq_true, ranking_le_iff, ranking_le_iff]
  unfold ranking_le_prop
  omega

theorem ranking_le_congr {a b a2 b2 : StrategyData}
    (ha : ranking_key a = ranking_key a2) (hb : ranking_key b = ranking_key b2) :
    ranking_le a b = ranking_le a2 b2 := by
  obtain ⟨h1, h2, h3, _⟩ : a.performance_score = a2.performance_score ∧
      a.current_balance = a2.current_balance ∧
      a.volatility_score = a2.volatility_score ∧ a.strategy_id = a2.strategy_id := by
    simpa [ranking_key, Prod.ext_iff] using ha
  obtain ⟨g1, g2, g3, _⟩ : b.performance_score = b2.performance_score ∧
      b.current_balance = b2.current_balance ∧
      b.volatility_score = b2.volatility_score ∧ b.strategy_id = b2.strategy_id := by
    simpa [ranking_key, Prod.ext_iff] using hb
  unfold ranking_le ranking_cmp
  rw [h1, h2, h3, g1, g2, g3]

theorem pairwise_transfer {l2 l1 : List StrategyData}
    (hmap : l1.map ranking_key = l2.map ranking_key)
    (hp : List.Pairwise (fun a b => ranking_le a b = true) l1) :
    List.Pairwise (fun a b => ranking_le a b = true) l2 := by
  induction l2 generalizing l1 with
  | nil => exact List.Pairwise.nil
  | cons b t2 ih =>
    cases l1 with
    | nil => simp at hmap
    | cons a t1 =>
      simp only [List.map_cons, List.cons.injEq] at hmap
      obtain ⟨hk, htl⟩ := hmap
      rcases hp with _ | ⟨hhead, htail⟩
      constructor
      · intro y hy
        obtain ⟨x, hx, hkxy⟩ : ∃ x ∈ t1, ranking_key x = ranking_key y := by
          have hmem : ranking_key y ∈ t1.map ranking_key := by
            rw [htl]; exact List.mem_map_of_mem _ hy
          obtain ⟨x, hx, he⟩ := List.mem_map.mp hmem
          exact ⟨x, hx, he⟩
        have hax := hhead x hx
        rw [ranking_le_congr hk hkxy] at hax
        exact hax
      · exact ih htl htail

theorem assign_ranks_fst_map_key (t n : Nat) :
    ∀ (l : List StrategyData) (i : Nat),
      ((assign_ranks t n i l).1).map ranking_key = l.map ranking_key := by
  intro l
  induction l with
  | nil => intro i; rfl
  | cons s rest ih =>
    intro i
    simp only [assign_ranks, List.map_cons]
    rw [ih (i + 1)]
    simp [ranking_key]

theorem assign_ranks_fst_length (t n : Nat) (l : List StrategyData) (i : Nat) :
    ((assign_ranks t n i l).1).length = l.length := by
  have := congrArg List.length (assign_ranks_fst_map_key t n l i)
  simpa using this

theorem assign_ranks_get_rank (t n : Nat) :
    ∀ (l : List StrategyData) (i j : Nat) (hj : j < ((assign_ranks t n i l).1).length),
      (((assign_ranks t n i l).1).get ⟨j, hj⟩).percentile_rank =
        if n = 1 then 50 else (n - 1 - (i + j)) * 100 / (n - 1) := by
  intro l
  induction l with
  | nil => intro i j hj; simp [assign_ranks] at hj
  | cons s rest ih =>
    intro i j hj
    cases j with
    | zero =>
      simp [assign_ranks, List.get]
    | succ j =>
      have hj2 : j < ((assign_ranks t n (i + 1) rest).1).length := by
        simp only [assign_ranks, List.length_cons] at hj
        omega
      have := ih (i + 1) j hj2
      simp only [assign_ranks, List.get_cons_succ]
      rw [this]
      have harith : i + 1 + j = i + (j + 1) := by omega
      rw [harith]

theorem assign_ranks_snd_small (t n : Nat) (hn : n ≤ 4) :
    ∀ (l : List StrategyData) (i : Nat),
      (assign_ranks t n i l).2 =
        (((assign_ranks t n i l).1).filter
          (fun d => d.percentile_rank < t)).map (·.strategy_id) := by
  intro l
  induction l with
  | nil => intro i; rfl
  | cons s rest ih =>
    intro i
    simp only [assign_ranks, if_pos hn]
    by_cases hc : (if n = 1 then 50 else (n - 1 - i) * 100 / (n - 1)) < t
    · simp [List.filter_cons, hc, ih (i + 1)]
    · simp [List.filter_cons, hc, ih (i + 1)]

theorem assign_ranks_snd_large (t n : Nat) (hn : 4 < n) :
    ∀ (l : List StrategyData) (i : Nat),
      (assign_ranks t n i l).2 =
        (((assign_ranks t n i l).1).drop
          (n - max (n * t / 100) 1 - i)).map (·.strategy_id) := by
  intro l
  induction l with
  | nil => intro i; simp [assign_ranks]
  | cons s rest ih =>
    intro i
    have hn1 : ¬ n ≤ 4 := by omega
    simp only [assign_ranks, if_neg hn1]
    by_cases hc : n - max (n * t / 100) 1 ≤ i
    · have h0 : n - max (n * t / 100) 1 - i = 0 := by omega
      have h1 : n - max (n * t / 100) 1 - (i + 1) = 0 := by omega
      simp [hc, h0, h1, ih (i + 1)]
    · have h0 : n - max (n * t / 100) 1 - i = (n - max (n * t / 100) 1 - (i + 1)) + 1 := by
        omega
      simp [hc, h0, List.drop_succ_cons, ih (i + 1)]

theorem calculate_percentile_rankings_eq {s : List StrategyData}
    {r : List StrategyData × List Pubkey}
    (h : calculate_percentile_rankings s = .ok r) :
    ∃ t, calculate_dynamic_threshold s = .ok t ∧
      r = assign_ranks t s.length 0 (s.mergeSort ranking_le) := by
  unfold calculate_percentile_rankings at h
  split at h
  · exact absurd h (by simp)
  rcases hdt : calculate_dynamic_threshold s with e | t <;> rw [hdt] at h
  · exact absurd h (by simp)
  · refine ⟨t, rfl, ?_⟩
    injection h with h
    exact h.symm

unseal List.merge List.mergeSort

/-! ## Claim C7 -/

/-- C7: `calculate_percentile_rankings` orders the strategies by descending
performance score with ties broken by descending balance then ascending
volatility (the output is sorted under `ranking_le` and is a permutation of
the input on every field the ranking does not overwrite); the strategy at
sorted index `j` of `n` receives percentile rank 50 when `n = 1` and
`((n - 1 - j) * 100) / (n - 1)` otherwise, so for 4 strategies the ranks are
exactly 100, 66, 33, 0. -/
theorem rank_order_thm {s : List StrategyData} {r : List StrategyData × List Pubkey}
    (h : calculate_percentile_rankings s = .ok r) :
    List.Pairwise (fun a b => ranking_le a b = true) r.1
    ∧ (r.1.map ranking_key).Perm (s.map ranking_key)
    ∧ (∀ j (hj : j < r.1.length),
        (r.1.get ⟨j, hj⟩).percentile_rank =
          if s.length = 1 then 50 else (s.length - 1 - j) * 100 / (s.length - 1))
    ∧ (s.length = 4 → r.1.map (·.percentile_rank) = [100, 66, 33, 0]) := by
  obtain ⟨t, hdt, hr⟩ := calculate_percentile_rankings_eq h
  subst hr
  have hmap := assign_ranks_fst_map_key t s.length (s.mergeSort ranking_le) 0
  have hsortedP : List.Pairwise (fun a b => ranking_le a b = true)
      (s.mergeSort ranking_le) :=
    List.sorted_mergeSort ranking_le_trans ranking_le_total s
  have hperm : (s.mergeSort ranking_le).Perm s := List.mergeSort_perm s ranking_le
  have hlen1 : ((assign_ranks t s.length 0 (s.mergeSort ranking_le)).1).length =
      (s.mergeSort ranking_le).length :=
    assign_ranks_fst_length t s.length (s.mergeSort ranking_le) 0
  have hlen2 : (s.mergeSort ranking_le).length = s.length := hperm.length_eq
  refine ⟨?_, ?_, ?_, ?_⟩
  · exact pairwise_transfer hmap.symm hsortedP
  · have hmk : ((s.mergeSort ranking_le).map ranking_key).Perm (s.map ranking_key) :=
      hperm.map ranking_key
    rw [← hmap] at hmk
    exact hmk
  · intro j hj
    have := assign_ranks_get_rank t s.length (s.mergeSort ranking_le) 0 j hj
    simpa using this
  · intro h4
    have hlen4 : ((assign_ranks t s.length 0 (s.mergeSort ranking_le)).1).length = 4 := by
      omega
    apply List.ext_get
    · simp [hlen4]
    · intro j hj1 hj2
      have hjlt : j < ((assign_ranks t s.length 0 (s.mergeSort ranking_le)).1).length := by
        simpa [hlen4] using hj1
      rw [List.get_map]
      rw [assign_ranks_get_rank t s.length (s.mergeSort ranking_le) 0 j hjlt]
      have hj4 : j < 4 := by
        simp at hj2
        omega
      rw [h4]
      interval_cases j <;> simp <;> rfl

/-- Witness for C7 on the four-strategy snapshot of the repository's
ranking unit test. -/
theorem rank_order_thm_witness :
    List.Pairwise (fun a b => ranking_le a b = true) fourStrategyRanked
    ∧ (fourStrategyRanked.map ranking_key).Perm (fourStrategySnapshot.map ranking_key)
    ∧ (∀ j (hj : j < fourStrategyRanked.length),
        (fourStrategyRanked.get ⟨j, hj⟩).percentile_rank =
          if fourStrategySnapshot.length = 1 then 50
          else (fourStrategySnapshot.length - 1 - j) * 100 /
            (fourStrategySnapshot.length - 1))
    ∧ (fourStrategySnapshot.length = 4 →
        fourStrategyRanked.map (·.percentile_rank) = [100, 66, 33, 0]) :=
  @rank_order_thm fourStrategySnapshot (fourStrategyRanked, [4]) (by decide)

/-! ## Claim C8 -/

/-- C8: the underperformer list follows the dual policy — with at most 4
strategies it is exactly the (sorted-order) strategies whose assigned
percentile rank is strictly below the dynamic threshold; with more than 4 it
is exactly the bottom `max(1, total * threshold / 100)` strategies in sort
order regardless of rank; a single-strategy input yields no underperformers. -/
theorem underperformer_policy_thm {s : List StrategyData}
    {r : List StrategyData × List Pubkey} {t : Nat}
    (h : calculate_percentile_rankings s = .ok r)
    (ht : calculate_dynamic_threshold s = .ok t) :
    (s.length ≤ 4 →
      r.2 = (r.1.filter (fun d => d.percentile_rank < t)).map (·.strategy_id))
    ∧ (4 < s.length →
      r.2 = (r.1.drop (s.length - max (s.length * t / 100) 1)).map (·.strategy_id))
    ∧ (s.length = 1 → r.2 = []) := by
  obtain ⟨t2, hdt, hr⟩ := calculate_percentile_rankings_eq h
  have htt : t = t2 := by
    have := ht.symm.trans hdt
    injection this
  subst htt
  subst hr
  obtain ⟨hb1, hb2⟩ := dynamic_threshold_bounds ht
  refine ⟨?_, ?_, ?_⟩
  · intro h4
    exact assign_ranks_snd_small t s.length h4 (s.mergeSort ranking_le) 0
  · intro h4
    have := assign_ranks_snd_large t s.length h4 (s.mergeSort ranking_le) 0
    simpa using this
  · intro h1
    have hsmall := assign_ranks_snd_small t s.length (by omega) (s.mergeSort ranking_le) 0
    have hlen : ((assign_ranks t s.length 0 (s.mergeSort ranking_le)).1).length = 1 := by
      rw [assign_ranks_fst_length,
        (List.mergeSort_perm s ranking_le).length_eq, h1]
    obtain ⟨x, hx⟩ := List.length_eq_one.mp hlen
    have hrank : x.percentile_rank = 50 := by
      have hj : (0 : Nat) < ((assign_ranks t s.length 0 (s.mergeSort ranking_le)).1).length := by
        omega
      have hform := assign_ranks_get_rank t s.length (s.mergeSort ranking_le) 0 0 hj
      have hget : ((assign_ranks t s.length 0 (s.mergeSort ranking_le)).1).get ⟨0, hj⟩ = x := by
        simp [hx]
      rw [hget, h1] at hform
      simpa using hform
    have hnot : ¬ (50 < t) := by omega
    rw [hsmall, hx]
    simp [List.filter, hrank, hnot]

/-- Witness for C8 on the four-strategy snapshot (threshold 23, one
underperformer). -/
theorem underperformer_policy_thm_witness :
    (fourStrategySnapshot.length ≤ 4 →
      ([4] : List Pubkey) =
        (fourStrategyRanked.filter (fun d => d.percentile_rank < 23)).map (·.strategy_id))
    ∧ (4 < fourStrategySnapshot.length →
      ([4] : List Pubkey) =
        (fourStrategyRanked.drop
          (fourStrategySnapshot.length -
            max (fourStrategySnapshot.length * 23 / 100) 1)).map (·.strategy_id))
    ∧ (fourStrategySnapshot.length = 1 → ([4] : List Pubkey) = []) :=
  @underperformer_policy_thm fourStrategySnapshot (fourStrategyRanked, [4]) 23
    (by decide) (by decide)

/-! ## Claim C9 -/

/-- C9 (amended): `execute_complete_rebalancing` partitions the input into
underperformers — exactly the strategies with percentile rank strictly below
the portfolio's rebalance threshold — and top performers — the FIRST five
strategies in input order with percentile rank at least 75 (not necessarily
the five best) — and fails with `InsufficientStrategies` whenever either
partition is empty; on success the plan's extraction targets, redistribution
batch and expected improvement are computed from those two partitions. -/
theorem plan_partition_thm (p : Portfolio) (ss : List StrategyPerformanceData) :
    ((underperformers_of p ss = [] ∨ top_performers_of ss = []) →
      execute_complete_rebalancing p ss = .error .InsufficientStrategies)
    ∧ (∀ plan, execute_complete_rebalancing p ss = .ok plan →
        underperformers_of p ss ≠ [] ∧ top_performers_of ss ≠ [] ∧
        plan.extraction_targets = (underperformers_of p ss).map (·.strategy_id) ∧
        calculate_optimal_allocation plan.total_to_extract (top_performers_of ss)
          RiskLimits.default = .ok plan.redistribution_plan ∧
        plan.expected_improvement = calculate_expected_improvement (top_performers_of ss)) := by
  constructor
  · intro hor
    unfold execute_complete_rebalancing
    dsimp only []
    rcases hor with h | h
    · rw [if_pos h]
    · by_cases hu : underperformers_of p ss = []
      · rw [if_pos hu]
      · rw [if_neg hu, if_pos h]
  · intro plan h
    unfold execute_complete_rebalancing at h
    dsimp only [] at h
    split at h
    · exact absurd h (by simp)
    split at h
    · exact absurd h (by simp)
    split at h
    · exact absurd h (by simp)
    rcases halloc : calculate_optimal_allocation
        (toU64 (((underperformers_of p ss).map (fun s => s.current_balance - 10000000)).sum))
        (top_performers_of ss) RiskLimits.default with e | allocs <;> rw [halloc] at h
    · exact absurd h (by simp)
    · injection h with h
      subst h
      refine ⟨by assumption, by assumption, rfl, ?_, rfl⟩
      dsimp only []
      exact halloc

/-- Witness for the amended C9 theorem: an empty snapshot has an empty
underperformer partition, so the call fails with `InsufficientStrategies`. -/
theorem plan_partition_thm_witness :
    execute_complete_rebalancing planPortfolio [] = .error .InsufficientStrategies :=
  (plan_partition_thm planPortfolio []).1 (Or.inl rfl)

/-- C9 counterexample: with six qualifying strategies (five of score 1000
first, the uniquely best one — rank 100, score 9000 — last) the plan's
expected improvement is 150, computed from the first five qualifiers; had the
top performers been the BEST five as the claim states, it would be 390. -/
theorem plan_best_five_cex :
    (execute_complete_rebalancing planPortfolio sevenStrategySnapshot).map
      (·.expected_improvement) = .ok 150
    ∧ calculate_expected_improvement (spec_best_top_performers sevenStrategySnapshot) = 390
    ∧ (150 : Nat) ≠ 390 := by
  decide

end Rebalancer
